import Mathlib

/-!
# Verification of the order-fulfillment saga and its leaf services

Shallow embedding of the inventory, payments, shipping and orders
microservices (`src/services/*/src/index.ts`) together with the shared
Postgres schema (`src/db/init/001_schema.sql`).  Database tables are
modelled as association lists; every HTTP handler becomes a pure function
from a request and the relevant state to an HTTP status code (plus any
response payload the claims need) and the updated state.  The handlers
run each SQL statement in autocommit mode (no `BEGIN`/`COMMIT` appears in
the source), which the embedding reflects by applying each statement's
effect unconditionally, in the order the source issues them; a statement
that violates a schema constraint raises, and the effects of the earlier
statements of the same handler stay applied.

Monetary values (`numeric(12,2)` columns, JS numbers) are modelled as
integers: the claims only multiply and compare them, never divide.
Timestamps (`Date.now()`) are inputs of the functions that consume them.
Fire-and-forget calls to the notifications service (all wrapped in
`try/catch {}` or ignored by the source) are elided.
-/

namespace Micro

/-! ## Inventory Ledger (`src/services/inventory/src/index.ts`) -/

/-- A row of the `reservations` table (`reservation_id`, `product_id`, `qty`).
The column `reservation_id` carries a UNIQUE constraint in the schema. -/
structure Reservation where
  reservationId : String
  productId : Nat
  qty : Int
  deriving Repr, DecidableEq

/-- The inventory service's slice of the database: the `stock` table
(primary key `product_id`, column `qty`) and the `reservations` table. -/
structure InvState where
  stock : List (Nat × Int)
  reservations : List Reservation
  deriving Repr, DecidableEq

/-- `select qty from stock where product_id=$1` combined with the callers'
`rows[0]?.qty || 0` defaulting: the qty of the first row for `p`, `0` when
no row exists. -/
def stockQty (p : Nat) : List (Nat × Int) → Int
  | [] => 0
  | e :: rest => if e.1 = p then e.2 else stockQty p rest

/-- Whether the `stock` table has a row for product `p`. -/
def hasRow (p : Nat) : List (Nat × Int) → Bool
  | [] => false
  | e :: rest => e.1 == p || hasRow p rest

/-- `update stock set qty=$1 where product_id=$2`: rewrites every row whose
key is `p`; a no-op when no such row exists (the `update` matches 0 rows). -/
def setRow (p : Nat) (q : Int) (l : List (Nat × Int)) : List (Nat × Int) :=
  l.map (fun e => if e.1 = p then (p, q) else e)

/-- Qty of product `p` in inventory state `s`. -/
def getQty (p : Nat) (s : InvState) : Int :=
  stockQty p s.stock

/-- `insert into stock(product_id, qty) values ($1, 0) on conflict do nothing`
(the `ensureStockRow` helper of the inventory service). -/
def ensureStockRow (p : Nat) (s : InvState) : InvState :=
  if hasRow p s.stock then s else { s with stock := s.stock ++ [(p, 0)] }

/-- `POST /inventory/reserve`.  Returns the HTTP status and the state.

Source order of effects: zod validation (`reservationId` nonempty, `qty` a
positive integer) → `ensureStockRow` → read `qty` → `409 Insufficient
stock` if `available < qty` → decrement stock → insert the reservation
row.  Each statement autocommits, so when the final insert violates the
UNIQUE constraint on `reservation_id` the handler answers `500` while the
decrement stays applied. -/
def reserveOp (rid : String) (p : Nat) (q : Int) (s : InvState) : Nat × InvState :=
  if rid.length = 0 ∨ ¬ 0 < q then (400, s)
  else
    let s1 := ensureStockRow p s
    let available := getQty p s1
    if available < q then (409, s1)
    else
      let s2 : InvState := { s1 with stock := setRow p (available - q) s1.stock }
      if s2.reservations.any (fun r => r.reservationId == rid) then (500, s2)
      else (200, { s2 with reservations := s2.reservations ++ [⟨rid, p, q⟩] })

/-- `POST /inventory/commit`: `delete from reservations where
reservation_id=$1`; `404 Reservation not found` when the delete matched no
row.  The stock table is never touched. -/
def commitOp (rid : String) (s : InvState) : Nat × InvState :=
  if rid.length = 0 then (400, s)
  else
    let remaining := s.reservations.filter (fun r => ¬ r.reservationId = rid)
    if remaining.length = s.reservations.length then (404, s)
    else (200, { s with reservations := remaining })

/-- `POST /inventory/release`: delete the reservation row (returning its
`product_id` and `qty`), `404` when absent, then
`update stock set qty=qty+$1 where product_id=$2`. -/
def releaseOp (rid : String) (s : InvState) : Nat × InvState :=
  if rid.length = 0 then (400, s)
  else
    match s.reservations.find? (fun r => r.reservationId == rid) with
    | none => (404, s)
    | some r =>
      let s1 : InvState :=
        { s with reservations := s.reservations.filter (fun x => ¬ x.reservationId = rid) }
      (200, { s1 with stock := setRow r.productId (getQty r.productId s1 + r.qty) s1.stock })

/-! ## Payment Processor (`src/services/payments/src/index.ts`) -/

/-- Status column of a `payments` row. -/
inductive PayStatus
  | captured
  | failed
  | refunded
  deriving Repr, DecidableEq

/-- A row of the `payments` table.  `order_id` is declared `int not null
references orders(id)`, hence a persisted row always carries an existing
order id; `payment_id` carries no uniqueness constraint. -/
structure PaymentRec where
  paymentId : String
  orderId : Nat
  amount : Int
  currency : String
  status : PayStatus
  deriving Repr, DecidableEq

/-- Numeric value of a decimal digit character (`Number(c)` for `c` in
`'0'..'9'`). -/
def digitVal (c : Char) : Nat := c.toNat - 48

/-- `paymentId.replace(/\D/g, '').slice(-1) || '0'`: the last decimal digit
occurring in the string, `'0'` when it contains none. -/
def lastDigit (pid : String) : Char :=
  ((pid.data.filter Char.isDigit).getLast?).getD '0'

/-- `Number(paymentId.replace(/\D/g, '').slice(-1) || '0') % 2 === 0`:
the charge succeeds exactly when the last digit of the payment id is even. -/
def chargeParityOk (pid : String) : Bool :=
  digitVal (lastDigit pid) % 2 == 0

/-- Body of `POST /payments/charge` after zod parsing (`orderId` optional). -/
structure ChargeReq where
  paymentId : String
  amount : Int
  currency : String
  orderId : Option Nat
  deriving Repr, DecidableEq

/-- `POST /payments/charge`.  Validation (`paymentId` and `currency`
nonempty, `amount` positive) → parity outcome → `insert into payments(...)`
inside `try {} catch {}`: the insert succeeds only when `orderId` was
supplied (column is NOT NULL) and references an existing order id (foreign
key); otherwise the exception is swallowed and no row is persisted.
Responds `402 {status:'failed'}` on odd parity, else `200
{status:'captured'}`. -/
def chargeOp (req : ChargeReq) (orderIds : List Nat) (pdb : List PaymentRec) :
    Nat × List PaymentRec :=
  if req.paymentId.length = 0 ∨ ¬ 0 < req.amount ∨ req.currency.length = 0 then (400, pdb)
  else
    let ok := chargeParityOk req.paymentId
    let st := if ok then PayStatus.captured else PayStatus.failed
    let pdb' :=
      match req.orderId with
      | some oid =>
        if orderIds.contains oid then
          pdb ++ [⟨req.paymentId, oid, req.amount, req.currency, st⟩]
        else pdb
      | none => pdb
    if ok then (200, pdb') else (402, pdb')

/-- `POST /payments/refund`.  Validation (`paymentId` nonempty) → select the
payment rows for the id (`rows[0]` decides) → `404 Payment not found` when
none, `409 Payment cannot be refunded` when its status is not `captured`,
else `update payments set status='refunded' where payment_id=$1` and `200`. -/
def refundOp (pid : String) (pdb : List PaymentRec) : Nat × List PaymentRec :=
  if pid.length = 0 then (400, pdb)
  else
    match pdb.find? (fun r => r.paymentId == pid) with
    | none => (404, pdb)
    | some pr =>
      if ¬ pr.status = PayStatus.captured then (409, pdb)
      else
        (200, pdb.map (fun r =>
          if r.paymentId = pid then { r with status := PayStatus.refunded } else r))

/-! ## Shipment Tracker (`src/services/shipping/src/index.ts`) -/

/-- Shipment stages, linear: `processing → collected → in_transit →
delivered_to_pickup` (terminal). -/
inductive ShipStage
  | processing
  | collected
  | in_transit
  | delivered_to_pickup
  deriving Repr, DecidableEq

/-- A row of the `shipments` table (`tracking_id` is UNIQUE). -/
structure Shipment where
  orderId : Nat
  trackingId : String
  status : ShipStage
  deriving Repr, DecidableEq

/-- The shipping service's tables: `shipments` and the append-only
`shipment_stages` history. -/
structure ShipState where
  shipments : List Shipment
  stages : List (String × ShipStage)
  deriving Repr, DecidableEq

/-- `POST /shipping/fulfill`: generates `TRK-{orderId}-{Date.now()}` (the
timestamp-derived id is the `tid` argument), then inside one
`try {} catch {}` inserts the shipment row (status `processing`) and the
first stage row.  A UNIQUE violation on `tracking_id` aborts both inserts
silently.  The response `{trackingId}` is returned regardless. -/
def fulfillOp (orderId : Nat) (tid : String) (sh : ShipState) : String × ShipState :=
  if sh.shipments.any (fun x => x.trackingId == tid) then (tid, sh)
  else
    (tid,
      { shipments := sh.shipments ++ [⟨orderId, tid, ShipStage.processing⟩],
        stages := sh.stages ++ [(tid, ShipStage.processing)] })

/-- Successor in the linear stage sequence; `none` at the terminal stage. -/
def nextStage : ShipStage → Option ShipStage
  | ShipStage.processing => some ShipStage.collected
  | ShipStage.collected => some ShipStage.in_transit
  | ShipStage.in_transit => some ShipStage.delivered_to_pickup
  | ShipStage.delivered_to_pickup => none

/-- Response of `POST /shipping/advance`: the HTTP status, and for `200`
responses the `{status, done}` payload. -/
structure AdvResult where
  code : Nat
  stage : Option ShipStage
  done : Option Bool
  deriving Repr, DecidableEq

/-- `POST /shipping/advance`.  Validation → look up the shipment (`404 Not
found` when unknown) → when the stage is terminal answer
`{status: current, done: true}` without touching the database → otherwise
update the shipment row, append the next stage to the history and answer
`{status: next, done: next === 'delivered_to_pickup'}`.  The notification
and the status push to the orders service are fire-and-forget
(`try/catch {}`) and elided. -/
def advanceOp (tid : String) (sh : ShipState) : AdvResult × ShipState :=
  if tid.length = 0 then (⟨400, none, none⟩, sh)
  else
    match sh.shipments.find? (fun x => x.trackingId == tid) with
    | none => (⟨404, none, none⟩, sh)
    | some row =>
      match nextStage row.status with
      | none => (⟨200, some row.status, some true⟩, sh)
      | some nx =>
        (⟨200, some nx, some (nx == ShipStage.delivered_to_pickup)⟩,
          { shipments := sh.shipments.map (fun x =>
              if x.trackingId = tid then { x with status := nx } else x),
            stages := sh.stages ++ [(tid, nx)] })

/-! ## Order Ledger and the saga orchestrator (`src/services/orders/src/index.ts`) -/

/-- Order status values. -/
inductive OrderStatus
  | created_unpaid
  | created_paid
  | failed
  | processing
  | collected
  | in_transit
  | delivered_to_pickup
  | received
  deriving Repr, DecidableEq

/-- A row of the `orders` table (`tracking_id` nullable). -/
structure OrderRow where
  id : Nat
  userId : Nat
  productId : Nat
  qty : Int
  status : OrderStatus
  trackingId : Option String
  deriving Repr, DecidableEq

/-- The whole shared database as seen by the orders service: its own
`orders` and `products` tables plus the tables of the three leaf services.
`products` is keyed by product id and carries the price. -/
structure Sys where
  orders : List OrderRow
  products : List (Nat × Int)
  inv : InvState
  payments : List PaymentRec
  ship : ShipState
  deriving Repr, DecidableEq

/-- `setOrderStatus(orderId, status, trackingId?)`: `update orders set
status=$1[, tracking_id=$2] where id=$k` — `tracking_id` is written only
when the argument was supplied. -/
def setOrderStatus (oid : Nat) (st : OrderStatus) (tid : Option String)
    (orders : List OrderRow) : List OrderRow :=
  orders.map (fun o =>
    if o.id = oid then
      { o with status := st,
               trackingId := match tid with | some t => some t | none => o.trackingId }
    else o)

/-- `fetch(...).ok`: true exactly for 2xx statuses. -/
def httpOk (code : Nat) : Bool :=
  decide (200 ≤ code) && decide (code < 300)

/-- The saga's view of the payments collaborator (`POST /payments/charge`
over HTTP): a request and the current `payments` table go in, the
response's `ok` flag and the table come out.  The theorems instantiate it
with `chargeSvc` (the real service) or quantify over it (an environment
whose responses may also reflect transport failures). -/
def ChargeSvc : Type :=
  ChargeReq → List PaymentRec → Bool × List PaymentRec

/-- The real payments service as a `ChargeSvc`, for a database whose
`orders` table currently lists `orderIds`. -/
def chargeSvc (orderIds : List Nat) : ChargeSvc := fun req pdb =>
  let r := chargeOp req orderIds pdb
  (httpOk r.1, r.2)

/-- A collaborator that always accepts the charge. -/
def alwaysCaptured : ChargeSvc := fun _ pdb => (true, pdb)

/-- A collaborator that always rejects the charge (gateway down, or every
parity attempt declined). -/
def alwaysDeclined : ChargeSvc := fun _ pdb => (false, pdb)

/-- `processPayment(orderId, amount, currency, ...)`: up to 3 charge
attempts with `paymentId = p-{orderId}-{attempt}`, stopping at the first
`r.ok` response.  Returns `(ok, paymentId?)` (`paymentId` only on success,
as in the source) and the payments table as left by the attempts.  The
`payment_failed` notification on exhaustion is fire-and-forget and elided. -/
def processPayment (svc : ChargeSvc) (orderId : Nat) (amount : Int) (currency : String)
    (pdb : List PaymentRec) : (Bool × Option String) × List PaymentRec :=
  let pid1 := "p-" ++ toString orderId ++ "-1"
  let a1 := svc ⟨pid1, amount, currency, some orderId⟩ pdb
  if a1.1 then ((true, some pid1), a1.2)
  else
    let pid2 := "p-" ++ toString orderId ++ "-2"
    let a2 := svc ⟨pid2, amount, currency, some orderId⟩ a1.2
    if a2.1 then ((true, some pid2), a2.2)
    else
      let pid3 := "p-" ++ toString orderId ++ "-3"
      let a3 := svc ⟨pid3, amount, currency, some orderId⟩ a2.2
      if a3.1 then ((true, some pid3), a3.2)
      else ((false, none), a3.2)

/-- Result of `processOrder`: `{ok:false, code:409|402}` on a failed step,
`{ok:true}` (code `200` here) on success. -/
structure SagaRes where
  ok : Bool
  code : Nat
  deriving Repr, DecidableEq

/-- `price` of a product: `select price from products where id=$1` with the
saga's `rows[0]?.price || 0` defaulting. -/
def priceOf (p : Nat) (products : List (Nat × Int)) : Int :=
  ((products.find? (fun e => e.1 = p)).map Prod.snd).getD 0

/-- `processOrder(order, userEmail)` — the saga orchestrator.
`tResv` and `tShip` are the two `Date.now()` readings (the saga's
`reservationId = r-{id}-{Date.now()}` and fulfill's
`trackingId = TRK-{orderId}-{Date.now()}`).

Steps, as in the source: reserve stock (on a non-ok response: mark the
order `failed`, return `{ok:false, code:409}`) → read the product price and
compute `amount = price * qty` → `processPayment` (on failure: release the
reservation, mark the order `failed`, return `{ok:false, code:402}`) →
commit the reservation (response ignored) → fulfill the shipment → set the
order `created_paid` with the returned `trackingId` → `{ok:true}`. -/
def processOrder (svc : ChargeSvc) (o : OrderRow) (tResv tShip : Nat) (s : Sys) :
    SagaRes × Sys :=
  let rid := "r-" ++ toString o.id ++ "-" ++ toString tResv
  let rr := reserveOp rid o.productId o.qty s.inv
  let s1 : Sys := { s with inv := rr.2 }
  if httpOk rr.1 then
    let amount := priceOf o.productId s1.products * o.qty
    let pay := processPayment svc o.id amount "USD" s1.payments
    let s2 : Sys := { s1 with payments := pay.2 }
    if pay.1.1 then
      let cc := commitOp rid s2.inv
      let s3 : Sys := { s2 with inv := cc.2 }
      let tid := "TRK-" ++ toString o.id ++ "-" ++ toString tShip
      let ff := fulfillOp o.id tid s3.ship
      (⟨true, 200⟩,
        { s3 with ship := ff.2,
                  orders := setOrderStatus o.id OrderStatus.created_paid (some ff.1) s3.orders })
    else
      let rel := releaseOp rid s2.inv
      (⟨false, 402⟩,
        { s2 with inv := rel.2,
                  orders := setOrderStatus o.id OrderStatus.failed none s2.orders })
  else
    (⟨false, 409⟩,
      { s1 with orders := setOrderStatus o.id OrderStatus.failed none s1.orders })

/-- Response of `POST /orders/:id/pay`: the HTTP status and, on success,
the order object placed in the response body. -/
structure PayResp where
  code : Nat
  order : Option OrderRow
  deriving Repr, DecidableEq

/-- `POST /orders/:id/pay` (auth verified).  Look the order up (`404` when
unknown) → `409 Order not payable` unless its status is `failed` or
`created_unpaid` → run the saga → on `{ok:false}` forward its code → on
success answer `200 {ok:true, order: o}` where `o` is the row **as read
before the saga ran** (the source never re-reads it). -/
def payOrder (svc : ChargeSvc) (oid : Nat) (tResv tShip : Nat) (s : Sys) :
    Nat × Option OrderRow × Sys :=
  match s.orders.find? (fun o => o.id == oid) with
  | none => (404, none, s)
  | some o =>
    if ¬ o.status = OrderStatus.failed ∧ ¬ o.status = OrderStatus.created_unpaid then
      (409, none, s)
    else
      let res := processOrder svc o tResv tShip s
      if res.1.ok then (200, some o, res.2) else (res.1.code, none, res.2)

/-! ## Operation sequences over the inventory (for the stock invariant) -/

/-- One client-visible inventory operation. -/
inductive InvOp
  | reserve (rid : String) (p : Nat) (q : Int)
  | commit (rid : String)
  | release (rid : String)
  deriving Repr, DecidableEq

/-- Dispatch one operation to its handler. -/
def stepInv : InvOp → InvState → Nat × InvState
  | InvOp.reserve rid p q, s => reserveOp rid p q s
  | InvOp.commit rid, s => commitOp rid s
  | InvOp.release rid, s => releaseOp rid s

/-- Run a sequence of operations, keeping only the final state. -/
def runInv : List InvOp → InvState → InvState
  | [], s => s
  | op :: rest, s => runInv rest (stepInv op s).2

/-- Sum of the quantities of the *successful* (`200`) reserve operations
for product `p` along the run. -/
def reservedAcc (p : Nat) : List InvOp → InvState → Int
  | [], _ => 0
  | op :: rest, s =>
    (match op with
      | InvOp.reserve _ p' q => if (stepInv op s).1 = 200 ∧ p' = p then q else 0
      | _ => 0) + reservedAcc p rest (stepInv op s).2

/-- Sum of the quantities returned to product `p` by the *successful*
(`200`) release operations along the run (a release returns the qty of the
reservation row it deletes). -/
def releasedAcc (p : Nat) : List InvOp → InvState → Int
  | [], _ => 0
  | op :: rest, s =>
    (match op with
      | InvOp.release rid =>
        (s.reservations.find? (fun r => r.reservationId == rid)).elim 0
          (fun r => if (stepInv op s).1 = 200 ∧ r.productId = p then r.qty else 0)
      | _ => 0) + releasedAcc p rest (stepInv op s).2

/-- The reservation ids used by the reserve operations of a sequence. -/
def reserveIds : List InvOp → List String
  | [] => []
  | InvOp.reserve rid _ _ :: rest => rid :: reserveIds rest
  | _ :: rest => reserveIds rest

/-- Well-formedness of an inventory state, maintained by the handlers:
every reservation's product has a stock row, every reservation qty is
positive, and every stock row is nonnegative. -/
structure InvWF (s : InvState) : Prop where
  resRow : ∀ r ∈ s.reservations, hasRow r.productId s.stock = true
  resPos : ∀ r ∈ s.reservations, 0 < r.qty
  stockNonneg : ∀ e ∈ s.stock, 0 ≤ e.2

/-! ## Concrete fixtures (used by witnesses and counterexamples) -/

/-- An unpaid order for one unit of product 1. -/
def oUnpaid : OrderRow := ⟨1, 1, 1, 1, OrderStatus.created_unpaid, none⟩

/-- The same order already paid. -/
def oPaid : OrderRow := ⟨1, 1, 1, 1, OrderStatus.created_paid, none⟩

/-- A one-order database: product 1 priced 5, stock 10, nothing else. -/
def sysUnpaid : Sys := ⟨[oUnpaid], [(1, 5)], ⟨[(1, 10)], []⟩, [], ⟨[], []⟩⟩

/-- The same database with the order already paid. -/
def sysPaid : Sys := ⟨[oPaid], [(1, 5)], ⟨[(1, 10)], []⟩, [], ⟨[], []⟩⟩

/-! ## Helper lemmas about the stock table -/

lemma stockQty_eq_zero_of_not_hasRow {p : Nat} {l : List (Nat × Int)}
    (h : hasRow p l = false) : stockQty p l = 0 := by
  induction l with
  | nil => rfl
  | cons e rest ih =>
    simp only [hasRow, Bool.or_eq_false_iff, beq_eq_false_iff_ne] at h
    simp only [stockQty, if_neg h.1]
    exact ih h.2

lemma hasRow_of_stockQty_ne_zero {p : Nat} {l : List (Nat × Int)}
    (h : stockQty p l ≠ 0) : hasRow p l = true := by
  by_contra hc
  exact h (stockQty_eq_zero_of_not_hasRow (Bool.eq_false_iff.mpr hc))

lemma stockQty_append {p : Nat} (l₁ l₂ : List (Nat × Int)) :
    stockQty p (l₁ ++ l₂) = if hasRow p l₁ then stockQty p l₁ else stockQty p l₂ := by
  induction l₁ with
  | nil => simp [hasRow]
  | cons e rest ih =>
    by_cases he : e.1 = p
    · simp [stockQty, hasRow, he]
    · simp only [List.cons_append, stockQty, if_neg he, hasRow, ih]
      have hb : (e.1 == p) = false := beq_eq_false_iff_ne.mpr he
      simp only [hb, Bool.false_or]
      exact ih

lemma hasRow_append {p : Nat} (l₁ l₂ : List (Nat × Int)) :
    hasRow p (l₁ ++ l₂) = (hasRow p l₁ || hasRow p l₂) := by
  induction l₁ with
  | nil => simp [hasRow]
  | cons e rest ih => simp [hasRow, ih, Bool.or_assoc]

lemma hasRow_setRow (p' p : Nat) (q : Int) (l : List (Nat × Int)) :
    hasRow p' (setRow p q l) = hasRow p' l := by
  induction l with
  | nil => rfl
  | cons e rest ih =>
    by_cases he : e.1 = p
    · simp [setRow, hasRow, he, List.map] at ih ⊢
      rw [ih]
    · simp [setRow, hasRow, if_neg he, List.map] at ih ⊢
      rw [ih]

lemma stockQty_setRow_self {p : Nat} (q : Int) {l : List (Nat × Int)}
    (h : hasRow p l = true) : stockQty p (setRow p q l) = q := by
  induction l with
  | nil => simp [hasRow] at h
  | cons e rest ih =>
    simp only [setRow, List.map_cons] at ih ⊢
    by_cases he : e.1 = p
    · simp [stockQty, he]
    · have hb : (e.1 == p) = false := beq_eq_false_iff_ne.mpr he
      simp only [hasRow, hb, Bool.false_or] at h
      simp only [if_neg he, stockQty]
      exact ih h

lemma stockQty_setRow_ne {p' p : Nat} (q : Int) (l : List (Nat × Int))
    (hne : p' ≠ p) : stockQty p' (setRow p q l) = stockQty p' l := by
  induction l with
  | nil => rfl
  | cons e rest ih =>
    simp only [setRow, List.map_cons] at ih ⊢
    by_cases he : e.1 = p
    · have hpp' : ¬ (p = p') := fun hc => hne hc.symm
      have he' : ¬ e.1 = p' := by rw [he]; exact hpp'
      simp only [if_pos he, stockQty, if_neg hpp', if_neg he']
      exact ih
    · by_cases hp' : e.1 = p'
      · simp only [if_neg he, stockQty, if_pos hp']
      · simp only [if_neg he, stockQty, if_neg hp']
        exact ih

lemma setRow_nonneg {p : Nat} {q : Int} {l : List (Nat × Int)}
    (hl : ∀ e ∈ l, 0 ≤ e.2) (hq : 0 ≤ q) : ∀ e ∈ setRow p q l, 0 ≤ e.2 := by
  intro e he
  simp only [setRow, List.mem_map] at he
  obtain ⟨a, ha, rfl⟩ := he
  by_cases h : a.1 = p
  · simp [if_pos h, hq]
  · simp only [if_neg h]
    exact hl a ha

lemma stockQty_nonneg {p : Nat} {l : List (Nat × Int)}
    (hl : ∀ e ∈ l, 0 ≤ e.2) : 0 ≤ stockQty p l := by
  induction l with
  | nil => simp [stockQty]
  | cons e rest ih =>
    by_cases he : e.1 = p
    · simpa [stockQty, he] using hl e (by simp)
    · simp only [stockQty, if_neg he]
      exact ih (fun x hx => hl x (by simp [hx]))

lemma ensureStockRow_reservations (p : Nat) (s : InvState) :
    (ensureStockRow p s).reservations = s.reservations := by
  unfold ensureStockRow
  split <;> rfl

lemma getQty_ensureStockRow (p' p : Nat) (s : InvState) :
    getQty p' (ensureStockRow p s) = getQty p' s := by
  unfold ensureStockRow
  split
  · rfl
  · next h =>
    simp only [getQty, stockQty_append]
    split
    · rfl
    · next h2 =>
      by_cases hp : p = p'
      · subst hp
        rw [stockQty_eq_zero_of_not_hasRow (Bool.eq_false_iff.mpr h)]
        simp [stockQty]
      · rw [stockQty_eq_zero_of_not_hasRow (Bool.eq_false_iff.mpr h2)]
        simp [stockQty, fun hc : p = p' => hp hc]

lemma hasRow_ensureStockRow_self (p : Nat) (s : InvState) :
    hasRow p (ensureStockRow p s).stock = true := by
  unfold ensureStockRow
  split
  · next h => exact h
  · simp [hasRow_append, hasRow]

lemma hasRow_ensureStockRow_mono {p' : Nat} (p : Nat) {s : InvState}
    (h : hasRow p' s.stock = true) : hasRow p' (ensureStockRow p s).stock = true := by
  unfold ensureStockRow
  split
  · exact h
  · simp [hasRow_append, h]

lemma ensureStockRow_nonneg {p : Nat} {s : InvState}
    (h : ∀ e ∈ s.stock, 0 ≤ e.2) : ∀ e ∈ (ensureStockRow p s).stock, 0 ≤ e.2 := by
  unfold ensureStockRow
  split
  · exact h
  · intro e he
    rcases List.mem_append.mp he with h1 | h2
    · exact h e h1
    · simp only [List.mem_singleton] at h2
      subst h2
      simp

/-! ## Claim C5: insufficient-stock reserve is rejected without side effects -/

/-- C5: for every reserve request with qty strictly greater than the
available stock of the product, reserve fails with `409 Insufficient
stock` and has no side effect: the stock qty is unchanged and no
reservation row is created. -/
theorem reserve_insufficient_409
    (rid : String) (p : Nat) (q : Int) (s : InvState)
    (hrid : rid.length ≠ 0) (hq : 0 < q) (hstock : getQty p s < q) :
    (reserveOp rid p q s).1 = 409 ∧
    getQty p (reserveOp rid p q s).2 = getQty p s ∧
    (reserveOp rid p q s).2.reservations = s.reservations := by
  have hval : ¬ (rid.length = 0 ∨ ¬ 0 < q) := by
    push_neg
    exact ⟨hrid, hq⟩
  have havail : getQty p (ensureStockRow p s) = getQty p s := getQty_ensureStockRow p p s
  have hlt : getQty p (ensureStockRow p s) < q := by rw [havail]; exact hstock
  have h1 : reserveOp rid p q s = (409, ensureStockRow p s) := by
    simp only [reserveOp, if_neg hval, if_pos hlt]
  rw [h1]
  exact ⟨rfl, havail, ensureStockRow_reservations p s⟩

/-- C5 witness: reserving 100 units against stock 10 answers 409 and leaves
both the qty and the reservations unchanged. -/
theorem reserve_insufficient_409_witness :
    (reserveOp "r9" 1 100 ⟨[(1, 10)], []⟩).1 = 409 ∧
    getQty 1 (reserveOp "r9" 1 100 ⟨[(1, 10)], []⟩).2 = getQty 1 ⟨[(1, 10)], []⟩ ∧
    (reserveOp "r9" 1 100 ⟨[(1, 10)], []⟩).2.reservations = ([] : List Reservation) :=
  reserve_insufficient_409 "r9" 1 100 ⟨[(1, 10)], []⟩ (by decide) (by decide) (by decide)

/-! ## Claim C8: commit deletes the reservation once, 404 afterwards -/

/-- C8: `commit(reservationId)` deletes the reservation row when it exists
and fails with `404 NotFound` when no reservation with that id exists; in
particular a second commit of the same id answers 404 rather than being
silently ignored, and commit never changes the stock table. -/
theorem commit_deletes_then_404
    (rid : String) (s : InvState) (hrid : rid.length ≠ 0) :
    ((∃ r ∈ s.reservations, r.reservationId = rid) →
       (commitOp rid s).1 = 200 ∧
       (commitOp rid s).2.reservations =
         s.reservations.filter (fun r => ¬ r.reservationId = rid) ∧
       (commitOp rid (commitOp rid s).2).1 = 404) ∧
    ((∀ r ∈ s.reservations, r.reservationId ≠ rid) → commitOp rid s = (404, s)) ∧
    (commitOp rid s).2.stock = s.stock := by
  have hstock : (commitOp rid s).2.stock = s.stock := by
    simp only [commitOp]
    by_cases h0 : rid.length = 0
    · rw [if_pos h0]
    · rw [if_neg h0]
      by_cases h1 : (s.reservations.filter (fun r => ¬ r.reservationId = rid)).length =
          s.reservations.length
      · rw [if_pos h1]
      · rw [if_neg h1]
  refine ⟨?_, ?_, hstock⟩
  · rintro ⟨r, hr, hrid'⟩
    have hlt : (s.reservations.filter (fun r => ¬ r.reservationId = rid)).length <
        s.reservations.length := by
      refine List.length_filter_lt_length_iff_exists.mpr ⟨r, hr, ?_⟩
      simp [hrid']
    have hne : ¬ (s.reservations.filter (fun r => ¬ r.reservationId = rid)).length =
        s.reservations.length := Nat.ne_of_lt hlt
    have h1 : commitOp rid s =
        (200, { s with reservations :=
          s.reservations.filter (fun r => ¬ r.reservationId = rid) }) := by
      simp only [commitOp, if_neg hrid, if_neg hne]
    refine ⟨by rw [h1], by rw [h1], ?_⟩
    rw [h1]
    have hself : ((s.reservations.filter (fun r => ¬ r.reservationId = rid)).filter
        (fun r => ¬ r.reservationId = rid)) =
        s.reservations.filter (fun r => ¬ r.reservationId = rid) := by
      refine List.filter_eq_self.mpr ?_
      intro x hx
      exact (List.mem_filter.mp hx).2
    simp only [commitOp, if_neg hrid]
    rw [hself]
    simp
  · intro hall
    have hself : s.reservations.filter (fun r => ¬ r.reservationId = rid) =
        s.reservations := by
      refine List.filter_eq_self.mpr ?_
      intro x hx
      simp [hall x hx]
    simp only [commitOp, if_neg hrid, hself]
    simp

/-- C8 witness: commit of an existing reservation answers 200 and removes
the row, a second commit answers 404, a commit of an absent id answers 404
and stock is untouched. -/
theorem commit_deletes_then_404_witness :
    ((commitOp "r1" ⟨[(1, 5)], [⟨"r1", 1, 5⟩]⟩).1 = 200 ∧
     (commitOp "r1" ⟨[(1, 5)], [⟨"r1", 1, 5⟩]⟩).2.reservations = [] ∧
     (commitOp "r1" (commitOp "r1" ⟨[(1, 5)], [⟨"r1", 1, 5⟩]⟩).2).1 = 404) ∧
    commitOp "zz" ⟨[(1, 5)], [⟨"r1", 1, 5⟩]⟩ = (404, ⟨[(1, 5)], [⟨"r1", 1, 5⟩]⟩) ∧
    (commitOp "r1" ⟨[(1, 5)], [⟨"r1", 1, 5⟩]⟩).2.stock = [(1, 5)] := by
  refine ⟨?_, ?_, ?_⟩
  · have h := (commit_deletes_then_404 "r1" ⟨[(1, 5)], [⟨"r1", 1, 5⟩]⟩ (by decide)).1
      ⟨⟨"r1", 1, 5⟩, by decide, rfl⟩
    refine ⟨h.1, ?_, h.2.2⟩
    rw [h.2.1]
    decide
  · exact (commit_deletes_then_404 "zz" ⟨[(1, 5)], [⟨"r1", 1, 5⟩]⟩ (by decide)).2.1
      (by intro r hr; fin_cases hr; decide)
  · exact (commit_deletes_then_404 "r1" ⟨[(1, 5)], [⟨"r1", 1, 5⟩]⟩ (by decide)).2.2

/-! ## Claim C9: refund precondition -/

/-- C9: refund on an unknown paymentId answers 404 and mutates nothing;
refund on an existing payment whose status is not `captured` answers 409
and mutates nothing; refund on a `captured` payment answers 200 and sets
the status of its rows to `refunded`. -/
theorem refund_precondition (pid : String) (pdb : List PaymentRec)
    (hpid : pid.length ≠ 0) :
    (pdb.find? (fun r => r.paymentId == pid) = none → refundOp pid pdb = (404, pdb)) ∧
    (∀ pr, pdb.find? (fun r => r.paymentId == pid) = some pr →
      (¬ pr.status = PayStatus.captured → refundOp pid pdb = (409, pdb)) ∧
      (pr.status = PayStatus.captured →
        refundOp pid pdb = (200, pdb.map (fun r =>
          if r.paymentId = pid then { r with status := PayStatus.refunded } else r)))) := by
  constructor
  · intro h
    simp only [refundOp, if_neg hpid, h]
  · intro pr h
    constructor
    · intro hs
      simp only [refundOp, if_neg hpid, h, if_pos hs]
    · intro hs
      have hs' : ¬ ¬ pr.status = PayStatus.captured := by simp [hs]
      simp only [refundOp, if_neg hpid, h, if_neg hs']

/-- C9 witness: refund of an unknown id answers 404; refund of a `failed`
payment answers 409 leaving the table unchanged; refund of a `captured`
payment answers 200 turning it `refunded`. -/
theorem refund_precondition_witness :
    refundOp "pX" [⟨"p1", 1, 5, "USD", PayStatus.failed⟩] =
      (404, [⟨"p1", 1, 5, "USD", PayStatus.failed⟩]) ∧
    refundOp "p1" [⟨"p1", 1, 5, "USD", PayStatus.failed⟩] =
      (409, [⟨"p1", 1, 5, "USD", PayStatus.failed⟩]) ∧
    refundOp "p2" [⟨"p2", 1, 5, "USD", PayStatus.captured⟩] =
      (200, [⟨"p2", 1, 5, "USD", PayStatus.refunded⟩]) := by
  refine ⟨?_, ?_, ?_⟩
  · exact (refund_precondition "pX" [⟨"p1", 1, 5, "USD", PayStatus.failed⟩] (by decide)).1
      (by decide)
  · exact ((refund_precondition "p1" [⟨"p1", 1, 5, "USD", PayStatus.failed⟩] (by decide)).2
      ⟨"p1", 1, 5, "USD", PayStatus.failed⟩ (by decide)).1 (by decide)
  · have h := ((refund_precondition "p2" [⟨"p2", 1, 5, "USD", PayStatus.captured⟩]
      (by decide)).2 ⟨"p2", 1, 5, "USD", PayStatus.captured⟩ (by decide)).2 rfl
    rw [h]
    decide

/-! ## Claim C6: advance is idempotent at the terminal stage -/

/-- C6: for every shipment whose current stage is `delivered_to_pickup`,
`advance` answers `200 {status: delivered_to_pickup, done: true}` and
leaves the shipping state (shipments and stage history) entirely
unchanged, so repeated calls behave identically. -/
theorem advance_terminal_idempotent (tid : String) (sh : ShipState)
    (htid : tid.length ≠ 0) (row : Shipment)
    (hfind : sh.shipments.find? (fun x => x.trackingId == tid) = some row)
    (hterm : row.status = ShipStage.delivered_to_pickup) :
    advanceOp tid sh = (⟨200, some ShipStage.delivered_to_pickup, some true⟩, sh) := by
  simp only [advanceOp, if_neg htid, hfind, hterm, nextStage]

/-- C6 witness: advancing a shipment already at `delivered_to_pickup`
answers done:true and changes nothing. -/
theorem advance_terminal_idempotent_witness :
    advanceOp "T1" ⟨[⟨1, "T1", ShipStage.delivered_to_pickup⟩],
        [("T1", ShipStage.processing)]⟩ =
      (⟨200, some ShipStage.delivered_to_pickup, some true⟩,
        ⟨[⟨1, "T1", ShipStage.delivered_to_pickup⟩], [("T1", ShipStage.processing)]⟩) :=
  advance_terminal_idempotent "T1" _ (by decide) ⟨1, "T1", ShipStage.delivered_to_pickup⟩
    (by decide) rfl

/-! ## Saga-path helper lemmas -/

lemma append_length_ne_zero {a : String} (b : String) (h : a.length ≠ 0) :
    (a ++ b).length ≠ 0 := by
  rw [String.length_append]
  omega

lemma hasRow_of_le_getQty {p : Nat} {q : Int} {s : InvState}
    (hq : 0 < q) (hle : q ≤ getQty p s) : hasRow p s.stock = true := by
  refine hasRow_of_stockQty_ne_zero ?_
  have : 0 < stockQty p s.stock := lt_of_lt_of_le hq hle
  omega

/-- A reserve with a fresh reservation id and sufficient stock succeeds:
the stock row is decremented and the reservation row appended. -/
lemma reserve_success (rid : String) (p : Nat) (q : Int) (s : InvState)
    (hrid : rid.length ≠ 0) (hq : 0 < q) (hstock : q ≤ getQty p s)
    (hfresh : ∀ r ∈ s.reservations, ¬ r.reservationId = rid) :
    reserveOp rid p q s =
      (200, ⟨setRow p (getQty p s - q) s.stock, s.reservations ++ [⟨rid, p, q⟩]⟩) := by
  have hval : ¬ (rid.length = 0 ∨ ¬ 0 < q) := by
    push_neg
    exact ⟨hrid, hq⟩
  have hrow : hasRow p s.stock = true := hasRow_of_le_getQty hq hstock
  have hens : ensureStockRow p s = s := by
    unfold ensureStockRow
    rw [if_pos hrow]
  have hge : ¬ getQty p s < q := not_lt.mpr hstock
  have hany : (s.reservations.any (fun r => r.reservationId == rid)) = false := by
    rw [List.any_eq_false]
    intro r hr
    simp [hfresh r hr]
  simp only [reserveOp, if_neg hval, hens, if_neg hge, hany, Bool.false_eq_true, if_false]

/-- Committing a reservation that sits (only) at the end of the table
deletes exactly that row and answers 200. -/
lemma commit_appended (rid : String) (stock' : List (Nat × Int))
    (resv : List Reservation) (r0 : Reservation)
    (hrid : rid.length ≠ 0) (hr0 : r0.reservationId = rid)
    (hfresh : ∀ r ∈ resv, ¬ r.reservationId = rid) :
    commitOp rid ⟨stock', resv ++ [r0]⟩ = (200, ⟨stock', resv⟩) := by
  have hfilter : (resv ++ [r0]).filter (fun r => ¬ r.reservationId = rid) = resv := by
    rw [List.filter_append]
    have h1 : resv.filter (fun r => ¬ r.reservationId = rid) = resv :=
      List.filter_eq_self.mpr (fun x hx => by simp [hfresh x hx])
    have h2 : [r0].filter (fun r => ¬ r.reservationId = rid) = [] := by
      simp [hr0]
    rw [h1, h2, List.append_nil]
  have hne : ¬ resv.length = (resv ++ [r0]).length := by simp
  simp only [commitOp, if_neg hrid, hfilter, if_neg hne]

/-- Releasing a reservation that sits (only) at the end of the table
deletes that row and adds its qty back onto its product's stock row. -/
lemma release_appended (rid : String) (stock' : List (Nat × Int))
    (resv : List Reservation) (r0 : Reservation)
    (hrid : rid.length ≠ 0) (hr0 : r0.reservationId = rid)
    (hfresh : ∀ r ∈ resv, ¬ r.reservationId = rid) :
    releaseOp rid ⟨stock', resv ++ [r0]⟩ =
      (200, ⟨setRow r0.productId (stockQty r0.productId stock' + r0.qty) stock', resv⟩) := by
  have hnone : resv.find? (fun r => r.reservationId == rid) = none :=
    List.find?_eq_none.mpr (fun x hx => beq_eq_false_iff_ne.mpr (hfresh x hx) ▸ by
      simp [beq_eq_false_iff_ne.mpr (hfresh x hx)])
  have hfind : (resv ++ [r0]).find? (fun r => r.reservationId == rid) = some r0 := by
    rw [List.find?_append, hnone]
    simp [hr0]
  have hfilter : (resv ++ [r0]).filter (fun x => ¬ x.reservationId = rid) = resv := by
    rw [List.filter_append]
    have h1 : resv.filter (fun x => ¬ x.reservationId = rid) = resv :=
      List.filter_eq_self.mpr (fun x hx => by simp [hfresh x hx])
    have h2 : [r0].filter (fun x => ¬ x.reservationId = rid) = [] := by
      simp [hr0]
    rw [h1, h2, List.append_nil]
  simp only [releaseOp, if_neg hrid, hfind, hfilter, getQty]

/-- With a collaborator that declines every charge, `processPayment`
exhausts its three attempts and reports failure. -/
lemma processPayment_declined (svc : ChargeSvc)
    (hsvc : ∀ req pdb, (svc req pdb).1 = false)
    (oid : Nat) (amount : Int) (cur : String) (pdb : List PaymentRec) :
    (processPayment svc oid amount cur pdb).1 = (false, none) := by
  simp only [processPayment, hsvc, Bool.false_eq_true, if_false]

/-! ## Step lemmas for sequences of inventory operations -/

lemma commitOp_stock (rid : String) (s : InvState) :
    (commitOp rid s).2.stock = s.stock := by
  simp only [commitOp]
  by_cases h0 : rid.length = 0
  · rw [if_pos h0]
  · rw [if_neg h0]
    by_cases h1 : (s.reservations.filter (fun r => ¬ r.reservationId = rid)).length =
        s.reservations.length
    · rw [if_pos h1]
    · rw [if_neg h1]

lemma commitOp_mem {rid : String} {s : InvState} {r : Reservation}
    (h : r ∈ (commitOp rid s).2.reservations) : r ∈ s.reservations := by
  simp only [commitOp] at h
  by_cases h0 : rid.length = 0
  · rw [if_pos h0] at h
    exact h
  · rw [if_neg h0] at h
    by_cases h1 : (s.reservations.filter (fun r => ¬ r.reservationId = rid)).length =
        s.reservations.length
    · rw [if_pos h1] at h
      exact h
    · rw [if_neg h1] at h
      exact (List.mem_filter.mp h).1

lemma release_found (rid : String) (s : InvState) (r0 : Reservation)
    (hrid : rid.length ≠ 0)
    (hfind : s.reservations.find? (fun r => r.reservationId == rid) = some r0) :
    releaseOp rid s =
      (200, ⟨setRow r0.productId (stockQty r0.productId s.stock + r0.qty) s.stock,
             s.reservations.filter (fun x => ¬ x.reservationId = rid)⟩) := by
  simp only [releaseOp, if_neg hrid, hfind, getQty]

/-- Main induction for the stock invariant: starting from a well-formed
state whose outstanding reservation ids are disjoint from the reserve ids
of the remaining operations (all pairwise distinct), the final qty of
every product equals its initial qty minus the successful reserves plus
the successful releases, and well-formedness is preserved. -/
lemma runInv_main (p : Nat) :
    ∀ (ops : List InvOp) (s : InvState),
      InvWF s →
      (∀ r ∈ s.reservations, r.reservationId ∉ reserveIds ops) →
      (reserveIds ops).Nodup →
      (getQty p (runInv ops s) =
        getQty p s - reservedAcc p ops s + releasedAcc p ops s) ∧
      InvWF (runInv ops s) := by
  intro ops
  induction ops with
  | nil =>
    intro s hwf _ _
    refine ⟨?_, hwf⟩
    simp [runInv, reservedAcc, releasedAcc]
  | cons op rest ih =>
    intro s hwf hdisj hnodup
    cases op with
    | reserve rid p' q =>
      have hfreshr : ∀ r ∈ s.reservations, ¬ r.reservationId = rid := by
        intro r hr hc
        have := hdisj r hr
        simp only [reserveIds, List.mem_cons] at this
        exact this (Or.inl hc)
      have hdisj_tail : ∀ r ∈ s.reservations, r.reservationId ∉ reserveIds rest := by
        intro r hr hc
        have := hdisj r hr
        simp only [reserveIds, List.mem_cons] at this
        exact this (Or.inr hc)
      have hnodup_cons := List.nodup_cons.mp (by simpa only [reserveIds] using hnodup)
      have hrid_tail : rid ∉ reserveIds rest := hnodup_cons.1
      have hnodup' : (reserveIds rest).Nodup := hnodup_cons.2
      by_cases hval : rid.length = 0 ∨ ¬ 0 < q
      · have hop : reserveOp rid p' q s = (400, s) := by
          simp only [reserveOp, if_pos hval]
        have hih := ih s hwf hdisj_tail hnodup'
        refine ⟨?_, by simpa [runInv, stepInv, hop] using hih.2⟩
        have h1 := hih.1
        simp [runInv, stepInv, reservedAcc, releasedAcc, hop]
        omega
      · push_neg at hval
        obtain ⟨hrid0, hqpos⟩ := hval
        have hv : ¬ (rid.length = 0 ∨ ¬ 0 < q) := by
          push_neg
          exact ⟨hrid0, hqpos⟩
        by_cases hins : getQty p' s < q
        · have hlt : getQty p' (ensureStockRow p' s) < q := by
            rw [getQty_ensureStockRow]
            exact hins
          have hop : reserveOp rid p' q s = (409, ensureStockRow p' s) := by
            simp only [reserveOp, if_neg hv, if_pos hlt]
          have hwf' : InvWF (ensureStockRow p' s) := by
            refine ⟨?_, ?_, ensureStockRow_nonneg hwf.stockNonneg⟩
            · intro r hr
              rw [ensureStockRow_reservations] at hr
              exact hasRow_ensureStockRow_mono p' (hwf.resRow r hr)
            · intro r hr
              rw [ensureStockRow_reservations] at hr
              exact hwf.resPos r hr
          have hdisj' : ∀ r ∈ (ensureStockRow p' s).reservations,
              r.reservationId ∉ reserveIds rest := by
            intro r hr
            rw [ensureStockRow_reservations] at hr
            exact hdisj_tail r hr
          have hih := ih (ensureStockRow p' s) hwf' hdisj' hnodup'
          refine ⟨?_, by simpa [runInv, stepInv, hop] using hih.2⟩
          have h1 := hih.1
          have h2 : getQty p (ensureStockRow p' s) = getQty p s :=
            getQty_ensureStockRow p p' s
          simp [runInv, stepInv, reservedAcc, releasedAcc, hop]
          omega
        · have hle : q ≤ getQty p' s := not_lt.mp hins
          have hop := reserve_success rid p' q s hrid0 hqpos hle hfreshr
          have hrow' : hasRow p' s.stock = true := hasRow_of_le_getQty hqpos hle
          have hwf' : InvWF ⟨setRow p' (getQty p' s - q) s.stock,
              s.reservations ++ [⟨rid, p', q⟩]⟩ := by
            refine ⟨?_, ?_, ?_⟩
            · intro r hr
              rcases List.mem_append.mp hr with h1 | h2
              · show hasRow r.productId (setRow p' (getQty p' s - q) s.stock) = true
                rw [hasRow_setRow]
                exact hwf.resRow r h1
              · simp only [List.mem_singleton] at h2
                subst h2
                show hasRow p' (setRow p' (getQty p' s - q) s.stock) = true
                rw [hasRow_setRow]
                exact hrow'
            · intro r hr
              rcases List.mem_append.mp hr with h1 | h2
              · exact hwf.resPos r h1
              · simp only [List.mem_singleton] at h2
                subst h2
                exact hqpos
            · exact setRow_nonneg hwf.stockNonneg (by omega)
          have hdisj' : ∀ r ∈ (⟨setRow p' (getQty p' s - q) s.stock,
              s.reservations ++ [⟨rid, p', q⟩]⟩ : InvState).reservations,
              r.reservationId ∉ reserveIds rest := by
            intro r hr
            rcases List.mem_append.mp hr with h1 | h2
            · exact hdisj_tail r h1
            · simp only [List.mem_singleton] at h2
              subst h2
              exact hrid_tail
          have hih := ih _ hwf' hdisj' hnodup'
          refine ⟨?_, by simpa [runInv, stepInv, hop] using hih.2⟩
          have h1 := hih.1
          by_cases hp : p' = p
          · subst hp
            have h2 : getQty p' (⟨setRow p' (getQty p' s - q) s.stock,
                s.reservations ++ [⟨rid, p', q⟩]⟩ : InvState) = getQty p' s - q := by
              show stockQty p' (setRow p' (getQty p' s - q) s.stock) = getQty p' s - q
              rw [stockQty_setRow_self _ hrow']
            simp [runInv, stepInv, reservedAcc, releasedAcc, hop]
            omega
          · have h2 : getQty p (⟨setRow p' (getQty p' s - q) s.stock,
                s.reservations ++ [⟨rid, p', q⟩]⟩ : InvState) = getQty p s := by
              show stockQty p (setRow p' (getQty p' s - q) s.stock) = stockQty p s.stock
              exact stockQty_setRow_ne _ _ (fun hc => hp hc.symm)
            simp [runInv, stepInv, reservedAcc, releasedAcc, hop, hp]
            omega
    | commit rid =>
      have hdisj_tail : ∀ r ∈ s.reservations, r.reservationId ∉ reserveIds rest := by
        intro r hr
        have := hdisj r hr
        simpa only [reserveIds] using this
      have hnodup' : (reserveIds rest).Nodup := by simpa only [reserveIds] using hnodup
      have hstk := commitOp_stock rid s
      have hwf' : InvWF (commitOp rid s).2 := by
        refine ⟨?_, ?_, ?_⟩
        · intro r hr
          rw [hstk]
          exact hwf.resRow r (commitOp_mem hr)
        · intro r hr
          exact hwf.resPos r (commitOp_mem hr)
        · intro e he
          rw [hstk] at he
          exact hwf.stockNonneg e he
      have hdisj' : ∀ r ∈ (commitOp rid s).2.reservations,
          r.reservationId ∉ reserveIds rest :=
        fun r hr => hdisj_tail r (commitOp_mem hr)
      have hih := ih (commitOp rid s).2 hwf' hdisj' hnodup'
      refine ⟨?_, by simpa [runInv, stepInv] using hih.2⟩
      have h1 := hih.1
      have h2 : getQty p (commitOp rid s).2 = getQty p s := by
        show stockQty p (commitOp rid s).2.stock = stockQty p s.stock
        rw [hstk]
      simp [runInv, stepInv, reservedAcc, releasedAcc]
      omega
    | release rid =>
      have hdisj_tail : ∀ r ∈ s.reservations, r.reservationId ∉ reserveIds rest := by
        intro r hr
        have := hdisj r hr
        simpa only [reserveIds] using this
      have hnodup' : (reserveIds rest).Nodup := by simpa only [reserveIds] using hnodup
      by_cases h0 : rid.length = 0
      · have hop : releaseOp rid s = (400, s) := by
          simp only [releaseOp, if_pos h0]
        have hih := ih s hwf hdisj_tail hnodup'
        refine ⟨?_, by simpa [runInv, stepInv, hop] using hih.2⟩
        have h1 := hih.1
        cases hf : s.reservations.find? (fun r => r.reservationId == rid) with
        | none =>
          simp [runInv, stepInv, reservedAcc, releasedAcc, hop, hf]
          omega
        | some r0 =>
          simp [runInv, stepInv, reservedAcc, releasedAcc, hop, hf]
          omega
      · cases hf : s.reservations.find? (fun r => r.reservationId == rid) with
        | none =>
          have hop : releaseOp rid s = (404, s) := by
            simp only [releaseOp, if_neg h0, hf]
          have hih := ih s hwf hdisj_tail hnodup'
          refine ⟨?_, by simpa [runInv, stepInv, hop] using hih.2⟩
          have h1 := hih.1
          simp [runInv, stepInv, reservedAcc, releasedAcc, hop, hf]
          omega
        | some r0 =>
          have hop := release_found rid s r0 h0 hf
          have hmem0 : r0 ∈ s.reservations := List.mem_of_find?_eq_some hf
          have hrow0 : hasRow r0.productId s.stock = true := hwf.resRow r0 hmem0
          have hpos0 : 0 < r0.qty := hwf.resPos r0 hmem0
          have hsub : ∀ r ∈ s.reservations.filter (fun x => ¬ x.reservationId = rid),
              r ∈ s.reservations := fun r hr => (List.mem_filter.mp hr).1
          have hwf' : InvWF ⟨setRow r0.productId
              (stockQty r0.productId s.stock + r0.qty) s.stock,
              s.reservations.filter (fun x => ¬ x.reservationId = rid)⟩ := by
            refine ⟨?_, ?_, ?_⟩
            · intro r hr
              show hasRow r.productId (setRow r0.productId _ s.stock) = true
              rw [hasRow_setRow]
              exact hwf.resRow r (hsub r hr)
            · intro r hr
              exact hwf.resPos r (hsub r hr)
            · refine setRow_nonneg hwf.stockNonneg ?_
              have := stockQty_nonneg (p := r0.productId) hwf.stockNonneg
              omega
          have hdisj' : ∀ r ∈ (⟨setRow r0.productId
              (stockQty r0.productId s.stock + r0.qty) s.stock,
              s.reservations.filter (fun x => ¬ x.reservationId = rid)⟩ :
                InvState).reservations,
              r.reservationId ∉ reserveIds rest :=
            fun r hr => hdisj_tail r (hsub r hr)
          have hih := ih _ hwf' hdisj' hnodup'
          refine ⟨?_, by simpa [runInv, stepInv, hop] using hih.2⟩
          have h1 := hih.1
          by_cases hp : r0.productId = p
          · have h2 : getQty p (⟨setRow r0.productId
                (stockQty r0.productId s.stock + r0.qty) s.stock,
                s.reservations.filter (fun x => ¬ x.reservationId = rid)⟩ : InvState) =
                getQty p s + r0.qty := by
              show stockQty p (setRow r0.productId _ s.stock) = stockQty p s.stock + r0.qty
              subst hp
              rw [stockQty_setRow_self _ hrow0]
            simp [runInv, stepInv, reservedAcc, releasedAcc, hop, hf, hp] at h1 h2 ⊢
            omega
          · have h2 : getQty p (⟨setRow r0.productId
                (stockQty r0.productId s.stock + r0.qty) s.stock,
                s.reservations.filter (fun x => ¬ x.reservationId = rid)⟩ : InvState) =
                getQty p s := by
              show stockQty p (setRow r0.productId _ s.stock) = stockQty p s.stock
              exact stockQty_setRow_ne _ _ (fun hc => hp hc.symm)
            simp [runInv, stepInv, reservedAcc, releasedAcc, hop, hf, hp] at h1 h2 ⊢
            omega

/-! ## Claim C4: the stock invariant -/

/-- C4 (amended): for every product and every sequence of
reserve/commit/release operations whose reserve operations use pairwise
distinct reservation ids (as the saga's timestamp-derived ids guarantee),
starting from nonnegative stock with no outstanding reservations, the
product's stock qty after the sequence — hence after any prefix, the
hypotheses being prefix-closed — equals the initial qty minus the sum of
quantities successfully reserved and not yet released, and it is never
negative; and reserve is rejected with 409 Insufficient stock whenever the
requested qty exceeds the available qty. -/
theorem stock_invariant (p : Nat) (ops : List InvOp) (stock0 : List (Nat × Int))
    (h0 : ∀ e ∈ stock0, 0 ≤ e.2) (hnodup : (reserveIds ops).Nodup) :
    (getQty p (runInv ops ⟨stock0, []⟩) =
       getQty p ⟨stock0, []⟩ - reservedAcc p ops ⟨stock0, []⟩ +
         releasedAcc p ops ⟨stock0, []⟩) ∧
    0 ≤ getQty p (runInv ops ⟨stock0, []⟩) ∧
    (∀ (rid : String) (q : Int) (s : InvState), rid.length ≠ 0 → 0 < q →
       getQty p s < q → (reserveOp rid p q s).1 = 409) := by
  have hwf0 : InvWF ⟨stock0, []⟩ := ⟨by simp, by simp, h0⟩
  have h := runInv_main p ops ⟨stock0, []⟩ hwf0 (by simp) hnodup
  refine ⟨h.1, ?_, ?_⟩
  · exact stockQty_nonneg h.2.stockNonneg
  · intro rid q s hrid hq hlt
    have hval : ¬ (rid.length = 0 ∨ ¬ 0 < q) := by
      push_neg
      exact ⟨hrid, hq⟩
    have hlt' : getQty p (ensureStockRow p s) < q := by
      rw [getQty_ensureStockRow]
      exact hlt
    simp only [reserveOp, if_neg hval, if_pos hlt']

/-- C4 amended-claim witness: a distinct-id sequence (reserve 5, release
it, reserve 3, commit it) on stock 10 satisfies the accounting equation
and nonnegativity, and an oversized reserve answers 409. -/
theorem stock_invariant_witness :
    (getQty 1 (runInv [InvOp.reserve "r1" 1 5, InvOp.release "r1",
        InvOp.reserve "r2" 1 3, InvOp.commit "r2"] ⟨[(1, 10)], []⟩) =
      getQty 1 ⟨[(1, 10)], []⟩ -
        reservedAcc 1 [InvOp.reserve "r1" 1 5, InvOp.release "r1",
          InvOp.reserve "r2" 1 3, InvOp.commit "r2"] ⟨[(1, 10)], []⟩ +
        releasedAcc 1 [InvOp.reserve "r1" 1 5, InvOp.release "r1",
          InvOp.reserve "r2" 1 3, InvOp.commit "r2"] ⟨[(1, 10)], []⟩) ∧
    0 ≤ getQty 1 (runInv [InvOp.reserve "r1" 1 5, InvOp.release "r1",
        InvOp.reserve "r2" 1 3, InvOp.commit "r2"] ⟨[(1, 10)], []⟩) ∧
    (reserveOp "r9" 1 100 ⟨[(1, 10)], []⟩).1 = 409 := by
  have h := stock_invariant 1 [InvOp.reserve "r1" 1 5, InvOp.release "r1",
    InvOp.reserve "r2" 1 3, InvOp.commit "r2"] [(1, 10)] (by decide) (by decide)
  exact ⟨h.1, h.2.1, h.2.2 "r9" 100 ⟨[(1, 10)], []⟩ (by decide) (by decide) (by decide)⟩

/-- C4 counterexample: reserving twice with the same reservationId — the
second call decrements the stock (each SQL statement autocommits) and then
fails on the UNIQUE constraint of `reservations.reservation_id` with a
500, creating no reservation row — leaves stock at 0 while "initial minus
successfully reserved and not yet released" is 10 − 5 = 5, so the claimed
equation fails for this sequence of operations. -/
theorem stock_invariant_counterexample :
    ¬ (getQty 1 (runInv [InvOp.reserve "r1" 1 5, InvOp.reserve "r1" 1 5] ⟨[(1, 10)], []⟩) =
       getQty 1 ⟨[(1, 10)], []⟩ -
         reservedAcc 1 [InvOp.reserve "r1" 1 5, InvOp.reserve "r1" 1 5] ⟨[(1, 10)], []⟩ +
         releasedAcc 1 [InvOp.reserve "r1" 1 5, InvOp.reserve "r1" 1 5] ⟨[(1, 10)], []⟩) := by
  decide

/-! ## Claim C1: payment failure compensates -/

/-- C1: when the pay saga reaches the charge step (reserve succeeded) and
every charge attempt fails, the saga releases the reservation — every
product's stock qty is back at its pre-reservation level and the
reservations table is restored — sets the order status to `failed`, and
pay returns 402. -/
theorem saga_payment_failure_compensates
    (svc : ChargeSvc) (oid tResv tShip : Nat) (s : Sys) (o : OrderRow)
    (hsvc : ∀ req pdb, (svc req pdb).1 = false)
    (hfind : s.orders.find? (fun x => x.id == oid) = some o)
    (hpay : o.status = OrderStatus.failed ∨ o.status = OrderStatus.created_unpaid)
    (hq : 0 < o.qty) (hstock : o.qty ≤ getQty o.productId s.inv)
    (hfresh : ∀ r ∈ s.inv.reservations,
      ¬ r.reservationId = "r-" ++ toString o.id ++ "-" ++ toString tResv) :
    (payOrder svc oid tResv tShip s).1 = 402 ∧
    (∀ p', getQty p' (payOrder svc oid tResv tShip s).2.2.inv = getQty p' s.inv) ∧
    (payOrder svc oid tResv tShip s).2.2.inv.reservations = s.inv.reservations ∧
    (payOrder svc oid tResv tShip s).2.2.orders =
      setOrderStatus o.id OrderStatus.failed none s.orders := by
  have hrid : ("r-" ++ toString o.id ++ "-" ++ toString tResv).length ≠ 0 := by
    have h2 : ("r-" : String).length = 2 := rfl
    simp only [String.length_append]
    omega
  have hres := reserve_success ("r-" ++ toString o.id ++ "-" ++ toString tResv)
    o.productId o.qty s.inv hrid hq hstock hfresh
  have hpp := processPayment_declined svc hsvc o.id
    (priceOf o.productId s.products * o.qty) "USD" s.payments
  have hrel := release_appended ("r-" ++ toString o.id ++ "-" ++ toString tResv)
    (setRow o.productId (getQty o.productId s.inv - o.qty) s.inv.stock)
    s.inv.reservations
    ⟨"r-" ++ toString o.id ++ "-" ++ toString tResv, o.productId, o.qty⟩
    hrid rfl hfresh
  have h200 : httpOk 200 = true := rfl
  have hsaga : processOrder svc o tResv tShip s =
      (⟨false, 402⟩,
        { s with
            inv := ⟨setRow o.productId
              (stockQty o.productId
                (setRow o.productId (getQty o.productId s.inv - o.qty) s.inv.stock) + o.qty)
              (setRow o.productId (getQty o.productId s.inv - o.qty) s.inv.stock),
              s.inv.reservations⟩,
            payments := (processPayment svc o.id
              (priceOf o.productId s.products * o.qty) "USD" s.payments).2,
            orders := setOrderStatus o.id OrderStatus.failed none s.orders }) := by
    simp only [processOrder, hres, h200, if_true, hpp, Bool.false_eq_true, if_false, hrel]
  have hcond : ¬ (¬ o.status = OrderStatus.failed ∧ ¬ o.status = OrderStatus.created_unpaid) := by
    rcases hpay with h | h
    · intro hc; exact hc.1 h
    · intro hc; exact hc.2 h
  have hroute : payOrder svc oid tResv tShip s =
      (402, none, (processOrder svc o tResv tShip s).2) := by
    simp only [payOrder, hfind, if_neg hcond, hsaga, Bool.false_eq_true, if_false]
  rw [hroute, hsaga]
  have hrow : hasRow o.productId s.inv.stock = true := hasRow_of_le_getQty hq hstock
  have hrow1 : hasRow o.productId
      (setRow o.productId (getQty o.productId s.inv - o.qty) s.inv.stock) = true := by
    rw [hasRow_setRow]; exact hrow
  refine ⟨rfl, ?_, rfl, rfl⟩
  intro p'
  by_cases hp : p' = o.productId
  · subst hp
    show stockQty o.productId _ = getQty o.productId s.inv
    rw [stockQty_setRow_self _ hrow1, stockQty_setRow_self _ hrow]
    unfold getQty
    omega
  · show stockQty p' _ = getQty p' s.inv
    rw [stockQty_setRow_ne _ _ hp, stockQty_setRow_ne _ _ hp]
    rfl

/-- C1 witness: paying the unpaid order with an always-declining
collaborator returns 402, restores product 1's stock and the reservations,
and marks the order failed. -/
theorem saga_payment_failure_compensates_witness :
    (payOrder alwaysDeclined 1 100 200 sysUnpaid).1 = 402 ∧
    getQty 1 (payOrder alwaysDeclined 1 100 200 sysUnpaid).2.2.inv =
      getQty 1 sysUnpaid.inv ∧
    (payOrder alwaysDeclined 1 100 200 sysUnpaid).2.2.inv.reservations =
      sysUnpaid.inv.reservations ∧
    (payOrder alwaysDeclined 1 100 200 sysUnpaid).2.2.orders =
      setOrderStatus 1 OrderStatus.failed none sysUnpaid.orders := by
  have h := saga_payment_failure_compensates alwaysDeclined 1 100 200 sysUnpaid oUnpaid
    (fun _ _ => rfl) (by decide) (Or.inr rfl) (by decide) (by decide) (by decide)
  exact ⟨h.1, h.2.1 1, h.2.2.1, h.2.2.2⟩

/-! ## Claim C2: charge success path -/

/-- A fulfill with a fresh tracking id inserts the shipment and its first
stage and returns the tracking id. -/
lemma fulfill_fresh (oid : Nat) (tid : String) (sh : ShipState)
    (hfresh : ∀ x ∈ sh.shipments, ¬ x.trackingId = tid) :
    fulfillOp oid tid sh =
      (tid, ⟨sh.shipments ++ [⟨oid, tid, ShipStage.processing⟩],
             sh.stages ++ [(tid, ShipStage.processing)]⟩) := by
  have hany : (sh.shipments.any (fun x => x.trackingId == tid)) = false := by
    rw [List.any_eq_false]
    intro x hx
    simp [hfresh x hx]
  simp only [fulfillOp, hany, Bool.false_eq_true, if_false]

/-- C2 (amended): when the charge step succeeds during pay, the saga
commits the reservation (the reservation row is gone, the stock deduction
stays), obtains a trackingId from fulfill, stores the order as
`created_paid` with that trackingId and creates the shipment — but the
route's 200 response carries the order snapshot *as read before the saga*,
not the updated one. -/
theorem saga_charge_success_commits
    (svc : ChargeSvc) (oid tResv tShip : Nat) (s : Sys) (o : OrderRow)
    (hfind : s.orders.find? (fun x => x.id == oid) = some o)
    (hpay : o.status = OrderStatus.failed ∨ o.status = OrderStatus.created_unpaid)
    (hq : 0 < o.qty) (hstock : o.qty ≤ getQty o.productId s.inv)
    (hfresh : ∀ r ∈ s.inv.reservations,
      ¬ r.reservationId = "r-" ++ toString o.id ++ "-" ++ toString tResv)
    (hpaid : (processPayment svc o.id (priceOf o.productId s.products * o.qty)
      "USD" s.payments).1.1 = true)
    (hshipfresh : ∀ x ∈ s.ship.shipments,
      ¬ x.trackingId = "TRK-" ++ toString o.id ++ "-" ++ toString tShip) :
    (payOrder svc oid tResv tShip s).1 = 200 ∧
    (payOrder svc oid tResv tShip s).2.1 = some o ∧
    (payOrder svc oid tResv tShip s).2.2.orders =
      setOrderStatus o.id OrderStatus.created_paid
        (some ("TRK-" ++ toString o.id ++ "-" ++ toString tShip)) s.orders ∧
    (payOrder svc oid tResv tShip s).2.2.inv.reservations = s.inv.reservations ∧
    getQty o.productId (payOrder svc oid tResv tShip s).2.2.inv =
      getQty o.productId s.inv - o.qty ∧
    (payOrder svc oid tResv tShip s).2.2.ship.shipments =
      s.ship.shipments ++
        [⟨o.id, "TRK-" ++ toString o.id ++ "-" ++ toString tShip, ShipStage.processing⟩] := by
  have hrid : ("r-" ++ toString o.id ++ "-" ++ toString tResv).length ≠ 0 := by
    have h2 : ("r-" : String).length = 2 := rfl
    simp only [String.length_append]
    omega
  have hres := reserve_success ("r-" ++ toString o.id ++ "-" ++ toString tResv)
    o.productId o.qty s.inv hrid hq hstock hfresh
  have hcommit := commit_appended ("r-" ++ toString o.id ++ "-" ++ toString tResv)
    (setRow o.productId (getQty o.productId s.inv - o.qty) s.inv.stock)
    s.inv.reservations
    ⟨"r-" ++ toString o.id ++ "-" ++ toString tResv, o.productId, o.qty⟩
    hrid rfl hfresh
  have hful := fulfill_fresh o.id ("TRK-" ++ toString o.id ++ "-" ++ toString tShip)
    s.ship hshipfresh
  have h200 : httpOk 200 = true := rfl
  have hsaga : processOrder svc o tResv tShip s =
      (⟨true, 200⟩,
        { s with
            inv := ⟨setRow o.productId (getQty o.productId s.inv - o.qty) s.inv.stock,
                    s.inv.reservations⟩,
            payments := (processPayment svc o.id
              (priceOf o.productId s.products * o.qty) "USD" s.payments).2,
            ship := ⟨s.ship.shipments ++
                [⟨o.id, "TRK-" ++ toString o.id ++ "-" ++ toString tShip,
                  ShipStage.processing⟩],
              s.ship.stages ++
                [("TRK-" ++ toString o.id ++ "-" ++ toString tShip, ShipStage.processing)]⟩,
            orders := setOrderStatus o.id OrderStatus.created_paid
              (some ("TRK-" ++ toString o.id ++ "-" ++ toString tShip)) s.orders }) := by
    simp only [processOrder, hres, h200, if_true, hpaid, hcommit, hful]
  have hcond : ¬ (¬ o.status = OrderStatus.failed ∧ ¬ o.status = OrderStatus.created_unpaid) := by
    rcases hpay with h | h
    · intro hc; exact hc.1 h
    · intro hc; exact hc.2 h
  have hroute : payOrder svc oid tResv tShip s =
      (200, some o, (processOrder svc o tResv tShip s).2) := by
    simp only [payOrder, hfind, if_neg hcond, hsaga, if_true]
  rw [hroute, hsaga]
  have hrow : hasRow o.productId s.inv.stock = true := hasRow_of_le_getQty hq hstock
  refine ⟨rfl, rfl, rfl, rfl, ?_, rfl⟩
  show stockQty o.productId _ = getQty o.productId s.inv - o.qty
  rw [stockQty_setRow_self _ hrow]

/-- C2 amended-claim witness: paying the unpaid order with an
always-accepting collaborator answers 200 with the stale snapshot, stores
`created_paid` with the fulfill trackingId, removes the reservation, keeps
the stock deduction and creates the shipment. -/
theorem saga_charge_success_commits_witness :
    (payOrder alwaysCaptured 1 100 200 sysUnpaid).1 = 200 ∧
    (payOrder alwaysCaptured 1 100 200 sysUnpaid).2.1 = some oUnpaid ∧
    (payOrder alwaysCaptured 1 100 200 sysUnpaid).2.2.orders =
      setOrderStatus 1 OrderStatus.created_paid
        (some ("TRK-" ++ toString 1 ++ "-" ++ toString 200)) sysUnpaid.orders ∧
    (payOrder alwaysCaptured 1 100 200 sysUnpaid).2.2.inv.reservations =
      sysUnpaid.inv.reservations ∧
    getQty 1 (payOrder alwaysCaptured 1 100 200 sysUnpaid).2.2.inv =
      getQty 1 sysUnpaid.inv - 1 ∧
    (payOrder alwaysCaptured 1 100 200 sysUnpaid).2.2.ship.shipments =
      sysUnpaid.ship.shipments ++
        [⟨1, "TRK-" ++ toString 1 ++ "-" ++ toString 200, ShipStage.processing⟩] :=
  saga_charge_success_commits alwaysCaptured 1 100 200 sysUnpaid oUnpaid
    (by decide) (Or.inr rfl) (by decide) (by decide) (by decide) rfl (by decide)

/-- C2 counterexample: with the real payments collaborator the pay of the
unpaid order succeeds (200), yet the order object in the response is the
pre-saga snapshot: its status is `created_unpaid`, not `created_paid`, and
it carries no trackingId — the route returns the row read before the saga
ran, contradicting the claim about the returned snapshot. -/
theorem pay_snapshot_counterexample :
    (payOrder (chargeSvc [1]) 1 100 200 sysUnpaid).1 = 200 ∧
    (payOrder (chargeSvc [1]) 1 100 200 sysUnpaid).2.1 = some oUnpaid ∧
    oUnpaid.status = OrderStatus.created_unpaid ∧
    oUnpaid.status ≠ OrderStatus.created_paid ∧
    oUnpaid.trackingId = none := by
  decide

/-! ## Claim C10: the saga's charge never needs a third attempt -/

lemma lastDigit_append (b t : String) (c : Char)
    (ht : (t.data.filter Char.isDigit).getLast? = some c) :
    lastDigit (b ++ t) = c := by
  unfold lastDigit
  rw [String.data_append, List.filter_append]
  obtain ⟨l', hl⟩ := List.getLast?_eq_some_iff.mp ht
  rw [hl, ← List.append_assoc, List.getLast?_concat]
  rfl

lemma chargeSvc_fst (orderIds : List Nat) (req : ChargeReq) (pdb : List PaymentRec)
    (hpid : req.paymentId.length ≠ 0) (hamt : 0 < req.amount)
    (hcur : req.currency.length ≠ 0) :
    (chargeSvc orderIds req pdb).1 = chargeParityOk req.paymentId := by
  have hval : ¬ (req.paymentId.length = 0 ∨ ¬ 0 < req.amount ∨ req.currency.length = 0) := by
    push_neg
    exact ⟨hpid, hamt, hcur⟩
  cases hok : chargeParityOk req.paymentId with
  | true =>
    simp only [chargeSvc, chargeOp, if_neg hval, hok, if_true, httpOk]
    decide
  | false =>
    simp only [chargeSvc, chargeOp, if_neg hval, hok, Bool.false_eq_true, if_false, httpOk]
    decide

lemma payment_pid_length (oid : Nat) (d : String) :
    ("p-" ++ toString oid ++ d).length ≠ 0 := by
  have h2 : ("p-" : String).length = 2 := rfl
  simp only [String.length_append]
  omega

/-- C10: the saga's nested charge procedure always succeeds at its second
attempt against the real payments service — `p-{orderId}-1` ends in the
odd digit 1 and is declined, `p-{orderId}-2` ends in the even digit 2 and
is captured — so `processPayment` always reports success, and no run of
the pay operation can return 402 (the payment-failure compensation branch
is unreachable) as long as every order has positive qty and a positively
priced product, which order and product creation validate. -/
theorem saga_charge_second_attempt_succeeds :
    (∀ (oid : Nat) (amount : Int) (currency : String) (orderIds : List Nat)
       (pdb : List PaymentRec), 0 < amount → currency.length ≠ 0 →
       (processPayment (chargeSvc orderIds) oid amount currency pdb).1 =
         (true, some ("p-" ++ toString oid ++ "-2"))) ∧
    (∀ (orderIds : List Nat) (oid tResv tShip : Nat) (s : Sys),
       (∀ o ∈ s.orders, 0 < o.qty ∧ 0 < priceOf o.productId s.products) →
       (payOrder (chargeSvc orderIds) oid tResv tShip s).1 ≠ 402) := by
  have hmain : ∀ (oid : Nat) (amount : Int) (currency : String) (orderIds : List Nat)
      (pdb : List PaymentRec), 0 < amount → currency.length ≠ 0 →
      (processPayment (chargeSvc orderIds) oid amount currency pdb).1 =
        (true, some ("p-" ++ toString oid ++ "-2")) := by
    intro oid amount currency orderIds pdb hamt hcur
    have hpar1 : chargeParityOk ("p-" ++ toString oid ++ "-1") = false := by
      unfold chargeParityOk
      rw [lastDigit_append ("p-" ++ toString oid) "-1" '1' (by decide)]
      decide
    have hpar2 : chargeParityOk ("p-" ++ toString oid ++ "-2") = true := by
      unfold chargeParityOk
      rw [lastDigit_append ("p-" ++ toString oid) "-2" '2' (by decide)]
      decide
    have ha1 : (chargeSvc orderIds
        ⟨"p-" ++ toString oid ++ "-1", amount, currency, some oid⟩ pdb).1 = false := by
      rw [chargeSvc_fst orderIds _ pdb (payment_pid_length oid "-1") hamt hcur]
      exact hpar1
    have ha2 : (chargeSvc orderIds
        ⟨"p-" ++ toString oid ++ "-2", amount, currency, some oid⟩
        ((chargeSvc orderIds
          ⟨"p-" ++ toString oid ++ "-1", amount, currency, some oid⟩ pdb).2)).1 = true := by
      rw [chargeSvc_fst orderIds _ _ (payment_pid_length oid "-2") hamt hcur]
      exact hpar2
    simp only [processPayment, ha1, Bool.false_eq_true, if_false, ha2, if_true]
  refine ⟨hmain, ?_⟩
  intro orderIds oid tResv tShip s hords
  cases hfind : s.orders.find? (fun x => x.id == oid) with
  | none =>
    simp only [payOrder, hfind]
    omega
  | some o =>
    by_cases hcond : ¬ o.status = OrderStatus.failed ∧ ¬ o.status = OrderStatus.created_unpaid
    · simp only [payOrder, hfind, if_pos hcond]
      omega
    · obtain ⟨hq, hprice⟩ := hords o (List.mem_of_find?_eq_some hfind)
      have hamt : 0 < priceOf o.productId s.products * o.qty := mul_pos hprice hq
      have hpaid : (processPayment (chargeSvc orderIds) o.id
          (priceOf o.productId s.products * o.qty) "USD" s.payments).1 =
          (true, some ("p-" ++ toString o.id ++ "-2")) :=
        hmain o.id _ "USD" orderIds s.payments hamt (by decide)
      by_cases hrok : httpOk (reserveOp
          ("r-" ++ toString o.id ++ "-" ++ toString tResv) o.productId o.qty s.inv).1 = true
      · have hfst : (processOrder (chargeSvc orderIds) o tResv tShip s).1 = ⟨true, 200⟩ := by
          simp only [processOrder, hrok, if_true, hpaid]
        simp only [payOrder, hfind, if_neg hcond, hfst, if_true]
        omega
      · have hfst : (processOrder (chargeSvc orderIds) o tResv tShip s).1 = ⟨false, 409⟩ := by
          simp only [processOrder, hrok, Bool.false_eq_true, if_false]
        simp only [payOrder, hfind, if_neg hcond, hfst, Bool.false_eq_true, if_false]
        omega

/-- C10 witness: at a concrete order, `processPayment` against the real
payments service reports success with `p-1-2`, and the composed pay
operation answers 200, not 402. -/
theorem saga_charge_second_attempt_succeeds_witness :
    (processPayment (chargeSvc [1]) 1 5 "USD" []).1 = (true, some "p-1-2") ∧
    (payOrder (chargeSvc [1]) 1 100 200 sysUnpaid).1 ≠ 402 := by
  constructor
  · have h := saga_charge_second_attempt_succeeds.1 1 5 "USD" [1] [] (by decide) (by decide)
    rw [h]
    rfl
  · exact saga_charge_second_attempt_succeeds.2 [1] 1 100 200 sysUnpaid
      (by intro o ho; fin_cases ho; exact ⟨by decide, by decide⟩)

/-! ## Claim C3: charge parity determinism and persistence -/

lemma filter_digit_getLast {l : List Char} {c : Char}
    (h : l.getLast? = some c) (hdig : c.isDigit = true) :
    (l.filter Char.isDigit).getLast? = some c := by
  obtain ⟨l', rfl⟩ := List.getLast?_eq_some_iff.mp h
  rw [List.filter_append]
  have : List.filter Char.isDigit [c] = [c] := by simp [hdig]
  rw [this, List.getLast?_concat]

lemma lastDigit_of_getLast {pid : String} {c : Char}
    (h : pid.data.getLast? = some c) (hdig : c.isDigit = true) :
    lastDigit pid = c := by
  unfold lastDigit
  rw [filter_digit_getLast h hdig]
  rfl

lemma paymentId_ne_empty {pid : String} {c : Char}
    (h : pid.data.getLast? = some c) : pid.length ≠ 0 := by
  obtain ⟨l', hl⟩ := List.getLast?_eq_some_iff.mp h
  simp [String.length, hl]

/-- C3 (amended): for a well-formed charge request whose paymentId ends in
a digit `c`: if `c` is even the handler answers `200 captured`, if odd it
answers `402 failed`; the payment record with the matching status is
persisted exactly when the request carries an `orderId` referencing an
existing order (otherwise the `insert` fails on `payments.order_id`'s
NOT NULL / foreign-key constraint and the `catch {}` swallows it, so no
row is persisted). -/
theorem charge_parity_and_persistence
    (req : ChargeReq) (orderIds : List Nat) (pdb : List PaymentRec)
    (hamt : 0 < req.amount) (hcur : req.currency.length ≠ 0)
    (c : Char) (hlast : req.paymentId.data.getLast? = some c) (hdig : c.isDigit = true) :
    (digitVal c % 2 = 0 → (chargeOp req orderIds pdb).1 = 200) ∧
    (digitVal c % 2 ≠ 0 → (chargeOp req orderIds pdb).1 = 402) ∧
    (chargeOp req orderIds pdb).2 = pdb ++
      (match req.orderId with
        | some oid =>
          if orderIds.contains oid then
            [⟨req.paymentId, oid, req.amount, req.currency,
              if digitVal c % 2 = 0 then PayStatus.captured else PayStatus.failed⟩]
          else []
        | none => []) := by
  have hval : ¬ (req.paymentId.length = 0 ∨ ¬ 0 < req.amount ∨ req.currency.length = 0) := by
    push_neg
    exact ⟨paymentId_ne_empty hlast, hamt, hcur⟩
  have hpar : chargeParityOk req.paymentId = (digitVal c % 2 == 0) := by
    unfold chargeParityOk
    rw [lastDigit_of_getLast hlast hdig]
  by_cases heven : digitVal c % 2 = 0
  · have hok : chargeParityOk req.paymentId = true := by
      rw [hpar]; exact beq_iff_eq.mpr heven
    refine ⟨fun _ => ?_, fun hodd => absurd heven hodd, ?_⟩
    · simp only [chargeOp, if_neg hval, hok, if_pos rfl, if_true]
    · simp only [chargeOp, if_neg hval, hok, if_pos heven, if_true]
      cases req.orderId with
      | none => simp
      | some oid =>
        by_cases hmem : oid ∈ orderIds
        · simp [hmem]
        · simp [hmem]
  · have hok : chargeParityOk req.paymentId = false := by
      rw [hpar]
      exact beq_eq_false_iff_ne.mpr heven
    refine ⟨fun he => absurd he heven, fun _ => ?_, ?_⟩
    · simp only [chargeOp, if_neg hval, hok, Bool.false_eq_true, if_false]
    · simp only [chargeOp, if_neg hval, hok, if_neg heven, Bool.false_eq_true, if_false]
      cases req.orderId with
      | none => simp
      | some oid =>
        by_cases hmem : oid ∈ orderIds
        · simp [hmem]
        · simp [hmem]

/-- C3 amended-claim witness: `p-7-2` (even trailing digit, known order)
answers 200 and persists a `captured` row; `p-7-1` (odd) answers 402 and
persists a `failed` row. -/
theorem charge_parity_and_persistence_witness :
    (chargeOp ⟨"p-7-2", 60, "USD", some 7⟩ [7] []).1 = 200 ∧
    (chargeOp ⟨"p-7-1", 60, "USD", some 7⟩ [7] []).1 = 402 ∧
    (chargeOp ⟨"p-7-2", 60, "USD", some 7⟩ [7] []).2 =
      [⟨"p-7-2", 7, 60, "USD", PayStatus.captured⟩] := by
  refine ⟨?_, ?_, ?_⟩
  · exact (charge_parity_and_persistence ⟨"p-7-2", 60, "USD", some 7⟩ [7] []
      (by decide) (by decide) '2' (by decide) (by decide)).1 (by decide)
  · exact (charge_parity_and_persistence ⟨"p-7-1", 60, "USD", some 7⟩ [7] []
      (by decide) (by decide) '1' (by decide) (by decide)).2.1 (by decide)
  · have h := (charge_parity_and_persistence ⟨"p-7-2", 60, "USD", some 7⟩ [7] []
      (by decide) (by decide) '2' (by decide) (by decide)).2.2
    rw [h]
    decide

/-- C3 counterexample: the charge request `{paymentId:"p2", amount:5,
currency:"USD"}` without an orderId is well formed and answers
`200 captured`, yet the payments table stays empty — no payment record is
persisted, contradicting the claim that a record is persisted in both
cases. -/
theorem charge_persistence_counterexample :
    (chargeOp ⟨"p2", 5, "USD", none⟩ [] []).1 = 200 ∧
    (chargeOp ⟨"p2", 5, "USD", none⟩ [] []).2 = [] := by
  decide

/-! ## Claim C7: pay precondition -/

/-- C7: for an existing order whose status is neither `failed` nor
`created_unpaid`, pay answers `409` ("Order not payable") and mutates
nothing; when the status is `failed` or `created_unpaid` the route's
result is exactly the saga's outcome (`processOrder` runs). -/
theorem pay_not_payable_409
    (svc : ChargeSvc) (oid tResv tShip : Nat) (s : Sys) (o : OrderRow)
    (hfind : s.orders.find? (fun x => x.id == oid) = some o) :
    (¬ o.status = OrderStatus.failed → ¬ o.status = OrderStatus.created_unpaid →
       payOrder svc oid tResv tShip s = (409, none, s)) ∧
    ((o.status = OrderStatus.failed ∨ o.status = OrderStatus.created_unpaid) →
       payOrder svc oid tResv tShip s =
         (if (processOrder svc o tResv tShip s).1.ok then
            (200, some o, (processOrder svc o tResv tShip s).2)
          else
            ((processOrder svc o tResv tShip s).1.code, none,
              (processOrder svc o tResv tShip s).2))) := by
  constructor
  · intro h1 h2
    simp only [payOrder, hfind, if_pos (And.intro h1 h2)]
  · intro hpay
    have hcond : ¬ (¬ o.status = OrderStatus.failed ∧ ¬ o.status = OrderStatus.created_unpaid) := by
      rcases hpay with h | h
      · intro hc; exact hc.1 h
      · intro hc; exact hc.2 h
    simp only [payOrder, hfind, if_neg hcond]

/-- C7 witness: paying the already-paid order answers 409 and leaves the
database untouched; paying the unpaid order runs the saga (here with the
always-declining collaborator, hence a 402 outcome). -/
theorem pay_not_payable_409_witness :
    payOrder alwaysDeclined 1 100 200 sysPaid = (409, none, sysPaid) ∧
    payOrder alwaysDeclined 1 100 200 sysUnpaid =
      (if (processOrder alwaysDeclined oUnpaid 100 200 sysUnpaid).1.ok then
         (200, some oUnpaid, (processOrder alwaysDeclined oUnpaid 100 200 sysUnpaid).2)
       else
         ((processOrder alwaysDeclined oUnpaid 100 200 sysUnpaid).1.code, none,
           (processOrder alwaysDeclined oUnpaid 100 200 sysUnpaid).2)) := by
  constructor
  · exact (pay_not_payable_409 alwaysDeclined 1 100 200 sysPaid oPaid (by decide)).1
      (by decide) (by decide)
  · exact (pay_not_payable_409 alwaysDeclined 1 100 200 sysUnpaid oUnpaid (by decide)).2
      (Or.inr rfl)

end Micro
